import Mathlib

/-!
Verification of the core calculation pipeline of the stock-optimizer
repository (`src/lib/calculations.ts`), shallowly embedded in Lean 4.
JavaScript numbers are modelled as real numbers; `undefined`-able derived
fields are modelled as `Option ℝ`, with the source's `?? 0` fallbacks
rendered as `Option.getD _ 0`.
-/

namespace StockOptimizer

noncomputable section

/-- The `InventoryItem` record of `analysisStore.ts`: eight raw attributes,
an `id`, and the derived fields that stages of the pipeline fill in. -/
structure Item where
  id : ℤ
  Risk : String
  demandFluctuation : String
  averageStock : ℝ
  dailyUsage : ℝ
  unitCost : ℝ
  leadTime : ℝ
  consignmentStock : String
  unitSize : String
  Risk_Score : Option ℝ := none
  Fluctuation_Score : Option ℝ := none
  Consignment_Score : Option ℝ := none
  Size_Score : Option ℝ := none
  Criticality_Agg : Option ℝ := none
  Demand_Agg : Option ℝ := none
  Supply_Agg : Option ℝ := none
  TOPSIS_Score : Option ℝ := none
  Fuzzy_TOPSIS_Score : Option ℝ := none
  Class : Option String := none
  Fuzzy_Class : Option String := none

instance : Inhabited Item :=
  ⟨{ id := 0, Risk := "", demandFluctuation := "", averageStock := 0,
     dailyUsage := 0, unitCost := 0, leadTime := 0, consignmentStock := "",
     unitSize := "" }⟩

/-- `MappingTable`: four per-attribute lookup tables from categorical labels
to crisp scores.  A JS `Record<string, number>` indexed at a possibly-absent
key is modelled as `String → Option ℝ`. -/
structure MappingTable where
  Risk : String → Option ℝ
  demandFluctuation : String → Option ℝ
  consignmentStock : String → Option ℝ
  unitSize : String → Option ℝ

/-- `AggregationWeights`: three named groups of paired weights. -/
structure AggregationWeights where
  criticalityRisk : ℝ
  criticalityFluctuation : ℝ
  demandDailyUsage : ℝ
  demandAverageStock : ℝ
  supplyLeadTime : ℝ
  supplyConsignment : ℝ

/-- A triangular fuzzy number `[l, m, u]`. -/
abbrev TFN : Type := ℝ × ℝ × ℝ

/-- `FuzzyTFN`: per-attribute lookup tables from labels to TFNs. -/
structure FuzzyTFN where
  Risk : String → Option TFN
  demandFluctuation : String → Option TFN
  consignmentStock : String → Option TFN
  unitSize : String → Option TFN

/-- `EntropyWeights`: one weight per decision-matrix criterion. -/
structure EntropyWeights where
  Criticality_Agg : ℝ
  Demand_Agg : ℝ
  Supply_Agg : ℝ
  unitCost : ℝ
  Size_Score : ℝ

/-- The `getValue` helper of `calculations.ts`: dynamic field access with a
`?? 0` fallback on the optional fields and `0` for unknown keys. -/
def getValue (item : Item) (key : String) : ℝ :=
  if key = "Risk_Score" then (item.Risk_Score).getD 0
  else if key = "Fluctuation_Score" then (item.Fluctuation_Score).getD 0
  else if key = "Consignment_Score" then (item.Consignment_Score).getD 0
  else if key = "Size_Score" then (item.Size_Score).getD 0
  else if key = "Criticality_Agg" then (item.Criticality_Agg).getD 0
  else if key = "Demand_Agg" then (item.Demand_Agg).getD 0
  else if key = "Supply_Agg" then (item.Supply_Agg).getD 0
  else if key = "Unit cost" then item.unitCost
  else if key = "Average stock" then item.averageStock
  else if key = "Daily usage" then item.dailyUsage
  else if key = "Lead time" then item.leadTime
  else if key = "TOPSIS_Score" then (item.TOPSIS_Score).getD 0
  else if key = "Fuzzy_TOPSIS_Score" then (item.Fuzzy_TOPSIS_Score).getD 0
  else 0

/-- `Math.min(...values)` on a non-empty argument list (the empty case is
irrelevant: `minMaxNormalize` maps it to the empty list either way). -/
def jsMin : List ℝ → ℝ
  | [] => 0
  | a :: as => as.foldl min a

/-- `Math.max(...values)` on a non-empty argument list. -/
def jsMax : List ℝ → ℝ
  | [] => 0
  | a :: as => as.foldl max a

/-- `minMaxNormalize` of `calculations.ts`: scale a series to `[0,1]`;
a constant series (`max === min`) maps to all `0.5`. -/
def minMaxNormalize (values : List ℝ) : List ℝ :=
  let mn := jsMin values
  let mx := jsMax values
  if mx = mn then values.map (fun _ => 0.5)
  else values.map (fun v => (v - mn) / (mx - mn))

theorem foldl_min_le_init (as : List ℝ) : ∀ a : ℝ, as.foldl min a ≤ a := by
  induction as with
  | nil => intro a; exact le_refl a
  | cons b bs ih =>
    intro a
    exact le_trans (ih (min a b)) (min_le_left a b)

theorem foldl_min_le_mem (as : List ℝ) : ∀ (a v : ℝ), v ∈ as → as.foldl min a ≤ v := by
  induction as with
  | nil => intro a v hv; cases hv
  | cons b bs ih =>
    intro a v hv
    rcases List.mem_cons.mp hv with h | h
    · rw [h]
      exact le_trans (foldl_min_le_init bs (min a b)) (min_le_right a b)
    · exact ih (min a b) v h

theorem le_foldl_max_init (as : List ℝ) : ∀ a : ℝ, a ≤ as.foldl max a := by
  induction as with
  | nil => intro a; exact le_refl a
  | cons b bs ih =>
    intro a
    exact le_trans (le_max_left a b) (ih (max a b))

theorem le_foldl_max_mem (as : List ℝ) : ∀ (a v : ℝ), v ∈ as → v ≤ as.foldl max a := by
  induction as with
  | nil => intro a v hv; cases hv
  | cons b bs ih =>
    intro a v hv
    rcases List.mem_cons.mp hv with h | h
    · rw [h]
      exact le_trans (le_max_right a b) (le_foldl_max_init bs (max a b))
    · exact ih (max a b) v h

theorem jsMin_le_mem {l : List ℝ} {v : ℝ} (hv : v ∈ l) : jsMin l ≤ v := by
  cases l with
  | nil => cases hv
  | cons a as =>
    rcases List.mem_cons.mp hv with h | h
    · rw [h]; exact foldl_min_le_init as a
    · exact foldl_min_le_mem as a v h

theorem mem_le_jsMax {l : List ℝ} {v : ℝ} (hv : v ∈ l) : v ≤ jsMax l := by
  cases l with
  | nil => cases hv
  | cons a as =>
    rcases List.mem_cons.mp hv with h | h
    · rw [h]; exact le_foldl_max_init as a
    · exact le_foldl_max_mem as a v h

theorem minMaxNormalize_mem_Icc {l : List ℝ} (hl : l ≠ []) :
    ∀ x ∈ minMaxNormalize l, 0 ≤ x ∧ x ≤ 1 := by
  intro x hx
  unfold minMaxNormalize at hx
  by_cases hdeg : jsMax l = jsMin l
  · rw [if_pos hdeg] at hx
    rcases List.mem_map.mp hx with ⟨v, _, hv⟩
    rw [← hv]; norm_num
  · rw [if_neg hdeg] at hx
    rcases List.mem_map.mp hx with ⟨v, hvl, hv⟩
    have hmn : jsMin l ≤ v := jsMin_le_mem hvl
    have hmx : v ≤ jsMax l := mem_le_jsMax hvl
    have hlt : jsMin l < jsMax l := by
      cases l with
      | nil => exact absurd rfl hl
      | cons a as =>
        have h1 : jsMin (a :: as) ≤ a := jsMin_le_mem (by simp)
        have h2 : a ≤ jsMax (a :: as) := mem_le_jsMax (by simp)
        exact lt_of_le_of_ne (le_trans h1 h2) (Ne.symm hdeg)
    have hpos : 0 < jsMax l - jsMin l := by linarith
    constructor
    · rw [← hv]; exact div_nonneg (by linarith) (le_of_lt hpos)
    · rw [← hv]; rw [div_le_one hpos]; linarith

theorem minMaxNormalize_length (l : List ℝ) :
    (minMaxNormalize l).length = l.length := by
  unfold minMaxNormalize
  by_cases hdeg : jsMax l = jsMin l
  · rw [if_pos hdeg]; simp
  · rw [if_neg hdeg]; simp

/-- C5: `minMaxNormalize` preserves length; on a non-empty list every output
lies in `[0,1]`; when `max = min` every output is exactly `0.5`; and the two
concrete examples `[1,2,3,4] ↦ [0, 1/3, 2/3, 1]`, `[5,5,5] ↦ [0.5,0.5,0.5]`
hold. -/
theorem c5_minMaxNormalize_spec :
    (∀ l : List ℝ, (minMaxNormalize l).length = l.length) ∧
    (∀ l : List ℝ, l ≠ [] → ∀ x ∈ minMaxNormalize l, 0 ≤ x ∧ x ≤ 1) ∧
    (∀ l : List ℝ, jsMax l = jsMin l → minMaxNormalize l = l.map (fun _ => 0.5)) ∧
    minMaxNormalize [1, 2, 3, 4] = [0, 1/3, 2/3, 1] ∧
    minMaxNormalize [5, 5, 5] = [0.5, 0.5, 0.5] := by
  refine ⟨minMaxNormalize_length, fun l hl => minMaxNormalize_mem_Icc hl, ?_, ?_, ?_⟩
  · intro l hdeg
    unfold minMaxNormalize
    rw [if_pos hdeg]
  · have hmn : jsMin [(1:ℝ), 2, 3, 4] = 1 := by
      simp only [jsMin, List.foldl]
      norm_num [min_def]
    have hmx : jsMax [(1:ℝ), 2, 3, 4] = 4 := by
      simp only [jsMax, List.foldl]
      norm_num [max_def]
    unfold minMaxNormalize
    rw [hmn, hmx, if_neg (by norm_num)]
    norm_num
  · have hmn : jsMin [(5:ℝ), 5, 5] = 5 := by
      simp only [jsMin, List.foldl]
      norm_num [min_def]
    have hmx : jsMax [(5:ℝ), 5, 5] = 5 := by
      simp only [jsMax, List.foldl]
      norm_num [max_def]
    unfold minMaxNormalize
    rw [hmn, hmx, if_pos rfl]
    norm_num

/-- C5 witness: the non-emptiness hypothesis discharged at `[1,2,3,4]` with
the member `1/3`, whose bounds follow from the theorem. -/
theorem c5_minMaxNormalize_spec_witness :
    ([1, 2, 3, 4] : List ℝ) ≠ [] ∧ (1/3 : ℝ) ∈ minMaxNormalize [1, 2, 3, 4] ∧
    (0 ≤ (1/3 : ℝ) ∧ (1/3 : ℝ) ≤ 1) := by
  have hmem : (1/3 : ℝ) ∈ minMaxNormalize [1, 2, 3, 4] := by
    rw [c5_minMaxNormalize_spec.2.2.2.1]; norm_num
  exact ⟨by simp, hmem, c5_minMaxNormalize_spec.2.1 _ (by simp) _ hmem⟩

/-- `applyMappings` of `calculations.ts`: write the four `*_Score` fields from
the lookup tables, `?? 0` on a missing label. -/
def applyMappings (data : List Item) (mappings : MappingTable) : List Item :=
  data.map (fun item =>
    { item with
      Risk_Score := some ((mappings.Risk item.Risk).getD 0),
      Fluctuation_Score := some ((mappings.demandFluctuation item.demandFluctuation).getD 0),
      Consignment_Score := some ((mappings.consignmentStock item.consignmentStock).getD 0),
      Size_Score := some ((mappings.unitSize item.unitSize).getD 0) })

/-- The per-item record of four TFNs produced by `applyFuzzyMappings`. -/
structure FuzzyValues where
  Risk : TFN
  demandFluctuation : TFN
  consignmentStock : TFN
  unitSize : TFN

/-- One element of the list `applyFuzzyMappings` returns: the item paired
with its four looked-up TFNs. -/
structure FuzzyItem where
  item : Item
  fuzzyValues : FuzzyValues

instance : Inhabited FuzzyItem :=
  ⟨{ item := default,
     fuzzyValues := { Risk := (0, 0, 0), demandFluctuation := (0, 0, 0),
                      consignmentStock := (0, 0, 0), unitSize := (0, 0, 0) } }⟩

/-- `applyFuzzyMappings` of `calculations.ts`: look up the four categorical
attributes as TFNs, `?? [0,0,0]` on a missing label. -/
def applyFuzzyMappings (data : List Item) (tfn : FuzzyTFN) : List FuzzyItem :=
  data.map (fun item =>
    { item := item,
      fuzzyValues :=
        { Risk := (tfn.Risk item.Risk).getD (0, 0, 0),
          demandFluctuation :=
            (tfn.demandFluctuation item.demandFluctuation).getD (0, 0, 0),
          consignmentStock :=
            (tfn.consignmentStock item.consignmentStock).getD (0, 0, 0),
          unitSize := (tfn.unitSize item.unitSize).getD (0, 0, 0) } })

/-- `calculateAggregations` of `calculations.ts`: min-max normalize the three
quantitative columns across the dataset, then write the three `*_Agg` fields
as weighted combinations; `Unit cost` is not touched. -/
def calculateAggregations (data : List Item) (weights : AggregationWeights) : List Item :=
  let normDailyUsage := minMaxNormalize (data.map (fun d => d.dailyUsage))
  let normAvgStock := minMaxNormalize (data.map (fun d => d.averageStock))
  let normLeadTime := minMaxNormalize (data.map (fun d => d.leadTime))
  data.enum.map (fun p =>
    { p.2 with
      Criticality_Agg := some (weights.criticalityRisk * (p.2.Risk_Score).getD 0 +
        weights.criticalityFluctuation * (p.2.Fluctuation_Score).getD 0),
      Demand_Agg := some (weights.demandDailyUsage * normDailyUsage.getD p.1 0 +
        weights.demandAverageStock * normAvgStock.getD p.1 0),
      Supply_Agg := some (weights.supplyLeadTime * normLeadTime.getD p.1 0 +
        weights.supplyConsignment * (p.2.Consignment_Score).getD 0) })

theorem getD_enum_map {α β : Type} [Inhabited β] (l : List α) (f : ℕ × α → β)
    (i : ℕ) (h : i < l.length) (d : β) :
    (l.enum.map f).getD i d = f (i, l.get ⟨i, h⟩) := by
  have hlen : i < (l.enum.map f).length := by
    rw [List.length_map, List.enum_length]; exact h
  rw [List.getD_eq_getElem _ _ hlen, List.getElem_map, List.getElem_enum]
  rfl

theorem getD_map {α β : Type} [Inhabited β] (l : List α) (f : α → β)
    (i : ℕ) (h : i < l.length) (d : β) :
    (l.map f).getD i d = f (l.get ⟨i, h⟩) := by
  have hlen : i < (l.map f).length := by rw [List.length_map]; exact h
  rw [List.getD_eq_getElem _ _ hlen, List.getElem_map]
  rfl

/-- C7: an absent categorical label yields crisp score `0` (written as
`some 0` on the item) under `applyMappings` and the TFN `(0,0,0)` under
`applyFuzzyMappings`; both operations are total and length-preserving
(the silent-fallback behaviour: no error path exists). -/
theorem c7_unknown_label_defaults (data : List Item) (mt : MappingTable)
    (ft : FuzzyTFN) (i : ℕ) (h : i < data.length) :
    (applyMappings data mt).length = data.length ∧
    (applyFuzzyMappings data ft).length = data.length ∧
    (mt.Risk ((data.get ⟨i, h⟩).Risk) = none →
      ((applyMappings data mt).getD i default).Risk_Score = some 0) ∧
    (mt.demandFluctuation ((data.get ⟨i, h⟩).demandFluctuation) = none →
      ((applyMappings data mt).getD i default).Fluctuation_Score = some 0) ∧
    (mt.consignmentStock ((data.get ⟨i, h⟩).consignmentStock) = none →
      ((applyMappings data mt).getD i default).Consignment_Score = some 0) ∧
    (mt.unitSize ((data.get ⟨i, h⟩).unitSize) = none →
      ((applyMappings data mt).getD i default).Size_Score = some 0) ∧
    (ft.Risk ((data.get ⟨i, h⟩).Risk) = none →
      (((applyFuzzyMappings data ft).getD i default).fuzzyValues).Risk = (0, 0, 0)) ∧
    (ft.demandFluctuation ((data.get ⟨i, h⟩).demandFluctuation) = none →
      (((applyFuzzyMappings data ft).getD i default).fuzzyValues).demandFluctuation = (0, 0, 0)) ∧
    (ft.consignmentStock ((data.get ⟨i, h⟩).consignmentStock) = none →
      (((applyFuzzyMappings data ft).getD i default).fuzzyValues).consignmentStock = (0, 0, 0)) ∧
    (ft.unitSize ((data.get ⟨i, h⟩).unitSize) = none →
      (((applyFuzzyMappings data ft).getD i default).fuzzyValues).unitSize = (0, 0, 0)) := by
  unfold applyMappings applyFuzzyMappings
  rw [List.length_map, List.length_map]
  rw [getD_map data _ i h, getD_map data _ i h]
  refine ⟨rfl, rfl, ?_, ?_, ?_, ?_, ?_, ?_, ?_, ?_⟩ <;>
    (intro hnone; simp only [List.get_eq_getElem] at hnone; simp [hnone])

/-- A fixture item with labels that no table below contains. -/
def witnessItemUnknown : Item :=
  { id := 1, Risk := "VeryHigh", demandFluctuation := "Odd",
    averageStock := 1, dailyUsage := 2, unitCost := 3, leadTime := 4,
    consignmentStock := "Maybe", unitSize := "Tiny" }

/-- A mapping table with no entries at all. -/
def emptyMappingTable : MappingTable :=
  ⟨fun _ => none, fun _ => none, fun _ => none, fun _ => none⟩

/-- A fuzzy table with no entries at all. -/
def emptyFuzzyTable : FuzzyTFN :=
  ⟨fun _ => none, fun _ => none, fun _ => none, fun _ => none⟩

/-- C7 witness: a one-item dataset whose labels are absent from an empty
mapping table and an empty fuzzy table; all lookup hypotheses hold by `rfl`. -/
theorem c7_unknown_label_defaults_witness :
    ((applyMappings [witnessItemUnknown] emptyMappingTable).getD 0 default).Risk_Score = some 0 ∧
    (((applyFuzzyMappings [witnessItemUnknown] emptyFuzzyTable).getD 0
      default).fuzzyValues).Risk = (0, 0, 0) := by
  have h := c7_unknown_label_defaults [witnessItemUnknown] emptyMappingTable
    emptyFuzzyTable 0 (by simp)
  exact ⟨h.2.2.1 rfl, h.2.2.2.2.2.2.1 rfl⟩

/-- C4: `calculateAggregations` writes exactly the three `*_Agg` fields,
using the weighted formulas over the min-max normalized `Daily usage`,
`Average stock` and `Lead time` columns and the raw mapped scores; every
other field (in particular `Unit cost`) is carried over unchanged, and no
clamping is applied to the results. -/
theorem c4_calculateAggregations_spec (data : List Item) (w : AggregationWeights)
    (i : ℕ) (h : i < data.length) :
    (calculateAggregations data w).getD i default =
      { data.get ⟨i, h⟩ with
        Criticality_Agg := some (w.criticalityRisk * ((data.get ⟨i, h⟩).Risk_Score).getD 0 +
          w.criticalityFluctuation * ((data.get ⟨i, h⟩).Fluctuation_Score).getD 0),
        Demand_Agg := some (w.demandDailyUsage *
            (minMaxNormalize (data.map (fun d => d.dailyUsage))).getD i 0 +
          w.demandAverageStock *
            (minMaxNormalize (data.map (fun d => d.averageStock))).getD i 0),
        Supply_Agg := some (w.supplyLeadTime *
            (minMaxNormalize (data.map (fun d => d.leadTime))).getD i 0 +
          w.supplyConsignment * ((data.get ⟨i, h⟩).Consignment_Score).getD 0) } := by
  unfold calculateAggregations
  rw [getD_enum_map data _ i h]

/-- A fixture item carrying mapped scores, for exercising the aggregator. -/
def witnessItemAgg : Item :=
  { id := 1, Risk := "High", demandFluctuation := "Stable",
    averageStock := 2, dailyUsage := 5, unitCost := 7, leadTime := 0,
    consignmentStock := "No", unitSize := "Small",
    Risk_Score := some 0.4, Fluctuation_Score := some 0.2,
    Consignment_Score := some 0.8, Size_Score := some 0.1 }

/-- The default aggregation weights of the store. -/
def witnessAggWeights : AggregationWeights :=
  { criticalityRisk := 0.78, criticalityFluctuation := 0.22,
    demandDailyUsage := 0.71, demandAverageStock := 0.29,
    supplyLeadTime := 0.75, supplyConsignment := 0.25 }

/-- C4 witness: two concrete items with constant quantitative columns (whose
normalization is the degenerate all-`0.5` case), evaluated at index 0. -/
theorem c4_calculateAggregations_spec_witness :
    (calculateAggregations [witnessItemAgg, { witnessItemAgg with id := 2 }]
        witnessAggWeights).getD 0 default =
      { witnessItemAgg with
        Criticality_Agg := some 0.356,
        Demand_Agg := some 0.5,
        Supply_Agg := some 0.575 } := by
  rw [c4_calculateAggregations_spec
    [witnessItemAgg, { witnessItemAgg with id := 2 }] witnessAggWeights 0 (by simp)]
  have hdeg5 : minMaxNormalize [(5:ℝ), 5] = [0.5, 0.5] := by
    unfold minMaxNormalize
    rw [show jsMax [(5:ℝ), 5] = 5 by simp [jsMax], show jsMin [(5:ℝ), 5] = 5 by simp [jsMin],
      if_pos rfl]
    norm_num
  have hdeg2 : minMaxNormalize [(2:ℝ), 2] = [0.5, 0.5] := by
    unfold minMaxNormalize
    rw [show jsMax [(2:ℝ), 2] = 2 by simp [jsMax], show jsMin [(2:ℝ), 2] = 2 by simp [jsMin],
      if_pos rfl]
    norm_num
  have hdeg0 : minMaxNormalize [(0:ℝ), 0] = [0.5, 0.5] := by
    unfold minMaxNormalize
    rw [show jsMax [(0:ℝ), 0] = 0 by simp [jsMax], show jsMin [(0:ℝ), 0] = 0 by simp [jsMin],
      if_pos rfl]
    norm_num
  simp only [List.map_cons, List.map_nil, witnessItemAgg, hdeg5, hdeg2, hdeg0]
  norm_num [witnessItemAgg, witnessAggWeights]

/-- `ABCThresholds`: cumulative population percentages. -/
structure ABCThresholds where
  A : ℝ
  B : ℝ
  C : ℝ

instance decRelScoreDesc (sf : String) :
    DecidableRel (fun a b : Item => getValue b sf ≤ getValue a sf) :=
  fun _ _ => Real.decidableLE _ _

/-- The comparator of `classifyABC`: JS `sort((a, b) => getValue(b, f) -
getValue(a, f))` orders by the score field descending; as a stable sort we
render it with Mathlib's (stable) insertion sort under the corresponding
total preorder. -/
def sortByScoreDesc (sf : String) (data : List Item) : List Item :=
  List.insertionSort (fun a b => getValue b sf ≤ getValue a sf) data

/-- `idxA = Math.floor((n * thresholds.A) / 100)`. -/
def rankIdxA (n : ℕ) (th : ABCThresholds) : ℤ := ⌊((n : ℝ) * th.A) / 100⌋

/-- `idxB = Math.floor((n * (thresholds.A + thresholds.B)) / 100)`. -/
def rankIdxB (n : ℕ) (th : ABCThresholds) : ℤ := ⌊((n : ℝ) * (th.A + th.B)) / 100⌋

/-- The tier label of rank position `idx`: `idx < idxA ? 'A' : idx < idxB ?
'B' : 'C'`. -/
def abcLabel (idx idxA idxB : ℤ) : String :=
  if idx < idxA then "A" else if idx < idxB then "B" else "C"

/-- `classifyABC` of `calculations.ts`: stable sort by the score field
descending, then label rank positions `[0, idxA)` with `A`, `[idxA, idxB)`
with `B` and the rest with `C`; the label goes to `Class` when the score
field is `TOPSIS_Score` and to `Fuzzy_Class` otherwise. -/
def classifyABC (data : List Item) (th : ABCThresholds) (scoreField : String) : List Item :=
  let sorted := sortByScoreDesc scoreField data
  let n := sorted.length
  let idxA := rankIdxA n th
  let idxB := rankIdxB n th
  sorted.enum.map (fun p =>
    if scoreField = "TOPSIS_Score" then
      { p.2 with Class := some (abcLabel p.1 idxA idxB) }
    else
      { p.2 with Fuzzy_Class := some (abcLabel p.1 idxA idxB) })

/-- C3: `classifyABC` sorts by the chosen score field descending (the output
of the stable sort is score-sorted and a permutation of the input), assigns
`A`/`B`/`C` by rank position against `idxA = ⌊n·A/100⌋` and
`idxB = ⌊n·(A+B)/100⌋`, writing `Class` for the crisp score field and
`Fuzzy_Class` for any other; and on any 10-item dataset with thresholds
`{A:20, B:30, C:50}` the cutoffs are `idxA = 2`, `idxB = 5`, so ranks 0-1
get `A`, ranks 2-4 get `B`, ranks 5-9 get `C`. -/
theorem c3_classifyABC_spec (data : List Item) (th : ABCThresholds) (sf : String) :
    (classifyABC data th sf).length = data.length ∧
    List.Sorted (fun a b => getValue b sf ≤ getValue a sf) (sortByScoreDesc sf data) ∧
    (sortByScoreDesc sf data).Perm data ∧
    (∀ i : ℕ, i < data.length →
      (sf = "TOPSIS_Score" →
        (classifyABC data th sf).getD i default =
          { (sortByScoreDesc sf data).getD i default with
              Class := some (abcLabel i (rankIdxA data.length th) (rankIdxB data.length th)) }) ∧
      (sf ≠ "TOPSIS_Score" →
        (classifyABC data th sf).getD i default =
          { (sortByScoreDesc sf data).getD i default with
              Fuzzy_Class := some (abcLabel i (rankIdxA data.length th) (rankIdxB data.length th)) })) ∧
    (data.length = 10 → th.A = 20 → th.B = 30 →
      rankIdxA data.length th = 2 ∧ rankIdxB data.length th = 5 ∧
      ∀ i : ℕ, i < 10 →
        ((classifyABC data th "TOPSIS_Score").getD i default).Class =
          some (if (i : ℤ) < 2 then "A" else if (i : ℤ) < 5 then "B" else "C")) := by
  haveI : IsTotal Item (fun a b => getValue b sf ≤ getValue a sf) :=
    ⟨fun a b => le_total (getValue b sf) (getValue a sf)⟩
  haveI : IsTrans Item (fun a b => getValue b sf ≤ getValue a sf) :=
    ⟨fun _ _ _ h1 h2 => le_trans h2 h1⟩
  have hmain : ∀ sf' : String, ∀ i : ℕ, ∀ hi : i < data.length,
      (classifyABC data th sf').getD i default =
        (fun p : ℕ × Item =>
          if sf' = "TOPSIS_Score" then
            { p.2 with Class := some (abcLabel p.1 (rankIdxA data.length th) (rankIdxB data.length th)) }
          else
            { p.2 with Fuzzy_Class := some (abcLabel p.1 (rankIdxA data.length th) (rankIdxB data.length th)) })
          (i, (sortByScoreDesc sf' data).get
            ⟨i, by rw [sortByScoreDesc, List.length_insertionSort]; exact hi⟩) := by
    intro sf' i hi
    have hlen : (sortByScoreDesc sf' data).length = data.length := by
      rw [sortByScoreDesc, List.length_insertionSort]
    simp only [classifyABC, hlen]
    rw [getD_enum_map _ _ i (by rw [hlen]; exact hi) default]
  refine ⟨?_, List.sorted_insertionSort _ data, List.perm_insertionSort _ data, ?_, ?_⟩
  · unfold classifyABC
    simp [List.enum_length, sortByScoreDesc]
  · intro i hi
    have hlen : (sortByScoreDesc sf data).length = data.length := by
      rw [sortByScoreDesc, List.length_insertionSort]
    constructor
    · intro hsf
      subst hsf
      rw [hmain "TOPSIS_Score" i hi]
      rw [List.getD_eq_getElem _ _ (by rw [hlen]; exact hi)]
      simp [List.get_eq_getElem]
    · intro hsf
      rw [hmain sf i hi]
      rw [List.getD_eq_getElem _ _ (by rw [hlen]; exact hi)]
      simp [List.get_eq_getElem, hsf]
  · intro hlen hA hB
    have hidxA : rankIdxA data.length th = 2 := by
      rw [rankIdxA, hlen, hA]; norm_num
    have hidxB : rankIdxB data.length th = 5 := by
      rw [rankIdxB, hlen, hA, hB]; norm_num
    refine ⟨hidxA, hidxB, ?_⟩
    intro i hi
    rw [hmain "TOPSIS_Score" i (by rw [hlen]; exact hi)]
    simp [abcLabel, hidxA, hidxB]

/-- Ten identical fixture items, for exercising the classifier. -/
def witnessItems10 : List Item :=
  List.replicate 10 { witnessItemAgg with TOPSIS_Score := some 1 }

/-- C3 witness: on the concrete 10-item dataset with thresholds
`{A:20, B:30, C:50}`, ranks 0, 1 get `A`, ranks 2, 4 get `B`, ranks 5, 9
get `C`. -/
theorem c3_classifyABC_spec_witness :
    ((classifyABC witnessItems10 ⟨20, 30, 50⟩ "TOPSIS_Score").getD 0 default).Class = some "A" ∧
    ((classifyABC witnessItems10 ⟨20, 30, 50⟩ "TOPSIS_Score").getD 1 default).Class = some "A" ∧
    ((classifyABC witnessItems10 ⟨20, 30, 50⟩ "TOPSIS_Score").getD 2 default).Class = some "B" ∧
    ((classifyABC witnessItems10 ⟨20, 30, 50⟩ "TOPSIS_Score").getD 4 default).Class = some "B" ∧
    ((classifyABC witnessItems10 ⟨20, 30, 50⟩ "TOPSIS_Score").getD 5 default).Class = some "C" ∧
    ((classifyABC witnessItems10 ⟨20, 30, 50⟩ "TOPSIS_Score").getD 9 default).Class = some "C" := by
  have hlen : witnessItems10.length = 10 := by simp [witnessItems10]
  have h := ((c3_classifyABC_spec witnessItems10 ⟨20, 30, 50⟩ "TOPSIS_Score").2.2.2.2
    hlen rfl rfl).2.2
  refine ⟨?_, ?_, ?_, ?_, ?_, ?_⟩ <;>
    (first
      | exact (h 0 (by norm_num)).trans (by norm_num)
      | exact (h 1 (by norm_num)).trans (by norm_num)
      | exact (h 2 (by norm_num)).trans (by norm_num)
      | exact (h 4 (by norm_num)).trans (by norm_num)
      | exact (h 5 (by norm_num)).trans (by norm_num)
      | exact (h 9 (by norm_num)).trans (by norm_num))

/-- The five decision-matrix criteria shared by `calculateEntropyWeights`
and `calculateTOPSIS`. -/
def criteriaKeys : List String :=
  ["Criticality_Agg", "Demand_Agg", "Supply_Agg", "Unit cost", "Size_Score"]

/-- The benefit-direction criteria of `calculateTOPSIS`. -/
def benefitCriteria : List String := ["Criticality_Agg", "Demand_Agg", "Size_Score"]

/-- Indexing the `EntropyWeights` record by criterion name (`weights[c]`). -/
def weightsGet (w : EntropyWeights) (key : String) : ℝ :=
  if key = "Criticality_Agg" then w.Criticality_Agg
  else if key = "Demand_Agg" then w.Demand_Agg
  else if key = "Supply_Agg" then w.Supply_Agg
  else if key = "Unit cost" then w.unitCost
  else if key = "Size_Score" then w.Size_Score
  else 0

/-- The raw 5-column decision matrix of `calculateTOPSIS`. -/
def topsisMatrix (data : List Item) : List (List ℝ) :=
  data.map (fun item => criteriaKeys.map (fun c => getValue item c))

/-- The per-column Euclidean norms (`colSums` in the source). -/
def topsisColSums (data : List Item) : List ℝ :=
  criteriaKeys.enum.map (fun p =>
    Real.sqrt ((topsisMatrix data).foldl (fun sum row => sum + (row.getD p.1 0) ^ 2) 0))

/-- The vector-normalized matrix: each entry divided by its column norm,
with a zero norm guarded to produce `0`. -/
def topsisNormalizedMatrix (data : List Item) : List (List ℝ) :=
  (topsisMatrix data).map (fun row =>
    row.enum.map (fun p =>
      if (topsisColSums data).getD p.1 0 = 0 then 0
      else p.2 / (topsisColSums data).getD p.1 0))

/-- The entropy weights in criterion order (`weightValues`). -/
def topsisWeightValues (w : EntropyWeights) : List ℝ :=
  criteriaKeys.map (fun c => weightsGet w c)

/-- The weighted normalized matrix. -/
def topsisWeightedMatrix (data : List Item) (w : EntropyWeights) : List (List ℝ) :=
  (topsisNormalizedMatrix data).map (fun row =>
    row.enum.map (fun p => p.2 * (topsisWeightValues w).getD p.1 0))

/-- The ideal-best point: per column, max of the weighted column for a
benefit criterion, min for a cost criterion. -/
def topsisIdealBest (data : List Item) (w : EntropyWeights) : List ℝ :=
  criteriaKeys.enum.map (fun p =>
    let col := (topsisWeightedMatrix data w).map (fun row => row.getD p.1 0)
    if p.2 ∈ benefitCriteria then jsMax col else jsMin col)

/-- The ideal-worst point: the opposite extremum per column. -/
def topsisIdealWorst (data : List Item) (w : EntropyWeights) : List ℝ :=
  criteriaKeys.enum.map (fun p =>
    let col := (topsisWeightedMatrix data w).map (fun row => row.getD p.1 0)
    if p.2 ∈ benefitCriteria then jsMin col else jsMax col)

/-- Euclidean distance from a weighted row to an ideal point (`dBest` /
`dWorst` in the source). -/
def topsisDist (row ideal : List ℝ) : ℝ :=
  Real.sqrt (row.enum.foldl (fun sum p => sum + (p.2 - ideal.getD p.1 0) ^ 2) 0)

/-- `calculateTOPSIS` of `calculations.ts`: write `TOPSIS_Score =
dWorst / (dBest + dWorst)` onto every item. -/
def calculateTOPSIS (data : List Item) (w : EntropyWeights) : List Item :=
  data.enum.map (fun p =>
    let row := (topsisWeightedMatrix data w).getD p.1 []
    let dBest := topsisDist row (topsisIdealBest data w)
    let dWorst := topsisDist row (topsisIdealWorst data w)
    { p.2 with TOPSIS_Score := some (dWorst / (dBest + dWorst)) })

theorem foldl_add_eq_sum {α : Type} (f : α → ℝ) :
    ∀ (l : List α) (init : ℝ),
      l.foldl (fun s x => s + f x) init = init + (l.map f).sum := by
  intro l
  induction l with
  | nil => intro init; simp
  | cons a as ih =>
    intro init
    simp only [List.foldl_cons, List.map_cons, List.sum_cons]
    rw [ih]
    ring

theorem topsisDist_eq_sqrt_sum (row ideal : List ℝ) :
    topsisDist row ideal =
      Real.sqrt ((row.enum.map (fun p => (p.2 - ideal.getD p.1 0) ^ 2)).sum) := by
  unfold topsisDist
  rw [foldl_add_eq_sum (fun p : ℕ × ℝ => (p.2 - ideal.getD p.1 0) ^ 2) row.enum 0]
  rw [zero_add]

theorem topsisDist_nonneg (row ideal : List ℝ) : 0 ≤ topsisDist row ideal :=
  Real.sqrt_nonneg _

theorem topsisDist_sq_term_le (row ideal : List ℝ) (i : ℕ) (hi : i < row.length) :
    (row[i] - ideal.getD i 0) ^ 2 ≤
      (row.enum.map (fun p => (p.2 - ideal.getD p.1 0) ^ 2)).sum := by
  have hmem : ((i, row[i]) : ℕ × ℝ) ∈ row.enum := by
    have h' : i < row.enum.length := by rw [List.enum_length]; exact hi
    have := List.getElem_enum row i h'
    rw [← this]
    exact List.getElem_mem h'
  have hmem2 : (row[i] - ideal.getD i 0) ^ 2 ∈
      row.enum.map (fun p => (p.2 - ideal.getD p.1 0) ^ 2) :=
    List.mem_map.mpr ⟨(i, row[i]), hmem, rfl⟩
  exact List.single_le_sum (fun x hx => by
    rcases List.mem_map.mp hx with ⟨q, _, hq⟩
    rw [← hq]; positivity) _ hmem2

theorem topsisDist_pos (row ideal : List ℝ) (i : ℕ) (hi : i < row.length)
    (h : row[i] - ideal.getD i 0 ≠ 0) : 0 < topsisDist row ideal := by
  rw [topsisDist_eq_sqrt_sum]
  rw [Real.sqrt_pos]
  have hterm : 0 < (row[i] - ideal.getD i 0) ^ 2 := by positivity
  exact lt_of_lt_of_le hterm (topsisDist_sq_term_le row ideal i hi)

theorem topsisMatrix_length (data : List Item) :
    (topsisMatrix data).length = data.length := by
  unfold topsisMatrix; rw [List.length_map]

theorem topsisNormalizedMatrix_length (data : List Item) :
    (topsisNormalizedMatrix data).length = data.length := by
  unfold topsisNormalizedMatrix; rw [List.length_map, topsisMatrix_length]

theorem topsisWeightedMatrix_length (data : List Item) (w : EntropyWeights) :
    (topsisWeightedMatrix data w).length = data.length := by
  unfold topsisWeightedMatrix; rw [List.length_map, topsisNormalizedMatrix_length]

theorem topsisWeightedMatrix_row_length (data : List Item) (w : EntropyWeights)
    (idx : ℕ) (hidx : idx < data.length) :
    ((topsisWeightedMatrix data w).getD idx []).length = 5 := by
  have h1 : idx < (topsisNormalizedMatrix data).length := by
    rw [topsisNormalizedMatrix_length]; exact hidx
  have h2 : idx < (topsisMatrix data).length := by
    rw [topsisMatrix_length]; exact hidx
  unfold topsisWeightedMatrix
  rw [getD_map _ _ idx h1]
  rw [List.length_map, List.enum_length]
  unfold topsisNormalizedMatrix
  rw [List.get_eq_getElem, List.getElem_map, List.length_map, List.enum_length]
  unfold topsisMatrix
  rw [List.getElem_map, List.length_map]
  rfl

/-- C1: whenever the ideal-best point differs from the ideal-worst point in
at least one of the five weighted dimensions, `calculateTOPSIS` assigns to
every item a `TOPSIS_Score` equal to `dWorst / (dBest + dWorst)` and lying
in `[0,1]`. -/
theorem c1_topsis_score_in_unit_interval (data : List Item) (w : EntropyWeights)
    (hne : ∃ i : ℕ, i < 5 ∧
      (topsisIdealBest data w).getD i 0 ≠ (topsisIdealWorst data w).getD i 0)
    (idx : ℕ) (hidx : idx < data.length) :
    ∃ s : ℝ,
      ((calculateTOPSIS data w).getD idx default).TOPSIS_Score = some s ∧
      s = topsisDist ((topsisWeightedMatrix data w).getD idx [])
            (topsisIdealWorst data w) /
          (topsisDist ((topsisWeightedMatrix data w).getD idx [])
            (topsisIdealBest data w) +
           topsisDist ((topsisWeightedMatrix data w).getD idx [])
            (topsisIdealWorst data w)) ∧
      0 ≤ s ∧ s ≤ 1 := by
  obtain ⟨i, hi5, hbw⟩ := hne
  set row := (topsisWeightedMatrix data w).getD idx [] with hrow
  have hrowlen : row.length = 5 := topsisWeightedMatrix_row_length data w idx hidx
  have hi : i < row.length := by rw [hrowlen]; exact hi5
  set dB := topsisDist row (topsisIdealBest data w) with hdB
  set dW := topsisDist row (topsisIdealWorst data w) with hdW
  have hB0 : 0 ≤ dB := topsisDist_nonneg _ _
  have hW0 : 0 ≤ dW := topsisDist_nonneg _ _
  have hden : 0 < dB + dW := by
    by_cases hb : row[i] - (topsisIdealBest data w).getD i 0 ≠ 0
    · have := topsisDist_pos row (topsisIdealBest data w) i hi hb
      linarith
    · push_neg at hb
      have hw : row[i] - (topsisIdealWorst data w).getD i 0 ≠ 0 := by
        intro hw
        apply hbw
        have h1 : row[i] = (topsisIdealBest data w).getD i 0 := by linarith
        have h2 : row[i] = (topsisIdealWorst data w).getD i 0 := by linarith
        rw [← h1, ← h2]
      have := topsisDist_pos row (topsisIdealWorst data w) i hi hw
      linarith
  refine ⟨dW / (dB + dW), ?_, rfl, div_nonneg hW0 (le_of_lt hden), ?_⟩
  · unfold calculateTOPSIS
    rw [getD_enum_map data _ idx hidx default]
  · rw [div_le_one hden]
    linarith

/-- C8: if a criterion column of the TOPSIS decision matrix has Euclidean
norm `0`, every entry of that column in the vector-normalized matrix is `0`
(the guarded division never happens, so the entry is well defined). -/
theorem c8_zero_norm_column (data : List Item) (i : ℕ) (hi : i < 5)
    (hz : (topsisColSums data).getD i 0 = 0) :
    ∀ row ∈ topsisNormalizedMatrix data, row.getD i 0 = 0 := by
  intro row hrow
  unfold topsisNormalizedMatrix at hrow
  rcases List.mem_map.mp hrow with ⟨orig, _, horig⟩
  subst horig
  by_cases hlen : i < (orig.enum.map (fun p : ℕ × ℝ =>
      if (topsisColSums data).getD p.1 0 = 0 then 0
      else p.2 / (topsisColSums data).getD p.1 0)).length
  · rw [List.getD_eq_getElem _ _ hlen, List.getElem_map, List.getElem_enum]
    exact if_pos hz
  · push_neg at hlen
    exact List.getD_eq_default _ _ hlen

/-- A fixture item whose five decision-matrix values are all `0`. -/
def witnessItemLow : Item :=
  { id := 1, Risk := "", demandFluctuation := "", averageStock := 0,
    dailyUsage := 0, unitCost := 0, leadTime := 0, consignmentStock := "",
    unitSize := "", Criticality_Agg := some 0, Demand_Agg := some 0,
    Supply_Agg := some 0, Size_Score := some 0 }

/-- A fixture item whose five decision-matrix values are all `1`. -/
def witnessItemHigh : Item :=
  { id := 2, Risk := "", demandFluctuation := "", averageStock := 0,
    dailyUsage := 0, unitCost := 1, leadTime := 0, consignmentStock := "",
    unitSize := "", Criticality_Agg := some 1, Demand_Agg := some 1,
    Supply_Agg := some 1, Size_Score := some 1 }

/-- A two-item fixture dataset with decision-matrix columns `(0, 1)`. -/
def witnessData01 : List Item := [witnessItemLow, witnessItemHigh]

/-- All-ones entropy weights, for exercising the TOPSIS ranker. -/
def witnessWeightsOne : EntropyWeights := ⟨1, 1, 1, 1, 1⟩

theorem witness_topsisMatrix_eval :
    topsisMatrix witnessData01 = [[0, 0, 0, 0, 0], [1, 1, 1, 1, 1]] := by
  simp [topsisMatrix, criteriaKeys, getValue, witnessData01,
    witnessItemLow, witnessItemHigh]

theorem witness_topsisColSums_eval :
    topsisColSums witnessData01 = [1, 1, 1, 1, 1] := by
  simp [topsisColSums, witness_topsisMatrix_eval, criteriaKeys,
    List.enum, List.enumFrom]

theorem witness_topsisNormalizedMatrix_eval :
    topsisNormalizedMatrix witnessData01 = [[0, 0, 0, 0, 0], [1, 1, 1, 1, 1]] := by
  simp [topsisNormalizedMatrix, witness_topsisMatrix_eval,
    witness_topsisColSums_eval, List.enum, List.enumFrom]
  have h1 : ([1, 1, 1, 1, 1] : List ℝ)[1] = 1 := by norm_num
  simp [h1]

theorem witness_topsisWeightedMatrix_eval :
    topsisWeightedMatrix witnessData01 witnessWeightsOne =
      [[0, 0, 0, 0, 0], [1, 1, 1, 1, 1]] := by
  simp [topsisWeightedMatrix, witness_topsisNormalizedMatrix_eval,
    topsisWeightValues, weightsGet, criteriaKeys, witnessWeightsOne,
    List.enum, List.enumFrom]
  have h1 : ([1, 1, 1, 1, 1] : List ℝ)[1] = 1 := by norm_num
  simp [h1]

theorem witness_topsisIdealBest_eval :
    (topsisIdealBest witnessData01 witnessWeightsOne).getD 0 0 = 1 := by
  simp [topsisIdealBest, criteriaKeys, benefitCriteria,
    witness_topsisWeightedMatrix_eval, jsMax, List.enum, List.enumFrom]

theorem witness_topsisIdealWorst_eval :
    (topsisIdealWorst witnessData01 witnessWeightsOne).getD 0 0 = 0 := by
  simp [topsisIdealWorst, criteriaKeys, benefitCriteria,
    witness_topsisWeightedMatrix_eval, jsMin, List.enum, List.enumFrom]

/-- C1 witness: on the two-item dataset with columns `(0,1)` and all-ones
weights, the ideal points differ in dimension 0, and item 0 receives a
score in `[0,1]`. -/
theorem c1_topsis_score_in_unit_interval_witness :
    (0 < 5 ∧ (topsisIdealBest witnessData01 witnessWeightsOne).getD 0 0 ≠
      (topsisIdealWorst witnessData01 witnessWeightsOne).getD 0 0) ∧
    0 < witnessData01.length ∧
    ∃ s : ℝ,
      ((calculateTOPSIS witnessData01 witnessWeightsOne).getD 0 default).TOPSIS_Score = some s ∧
      0 ≤ s ∧ s ≤ 1 := by
  have hne : (topsisIdealBest witnessData01 witnessWeightsOne).getD 0 0 ≠
      (topsisIdealWorst witnessData01 witnessWeightsOne).getD 0 0 := by
    rw [witness_topsisIdealBest_eval, witness_topsisIdealWorst_eval]
    norm_num
  have hlen : 0 < witnessData01.length := by simp [witnessData01]
  obtain ⟨s, hs, _, hs0, hs1⟩ :=
    c1_topsis_score_in_unit_interval witnessData01 witnessWeightsOne
      ⟨0, by norm_num, hne⟩ 0 hlen
  exact ⟨⟨by norm_num, hne⟩, hlen, s, hs, hs0, hs1⟩

/-- C8 witness: a one-item dataset whose `Criticality_Agg` column is all
zero, so its Euclidean norm is `0` and the normalized entry is `0`. -/
theorem c8_zero_norm_column_witness :
    (topsisColSums [witnessItemUnknown]).getD 0 0 = 0 ∧
    ((topsisNormalizedMatrix [witnessItemUnknown]).getD 0 []).getD 0 0 = 0 := by
  have hz : (topsisColSums [witnessItemUnknown]).getD 0 0 = 0 := by
    simp [topsisColSums, topsisMatrix, criteriaKeys, getValue, witnessItemUnknown]
  have hlen : 0 < (topsisNormalizedMatrix [witnessItemUnknown]).length := by
    rw [topsisNormalizedMatrix_length]; simp
  have hmem : (topsisNormalizedMatrix [witnessItemUnknown]).getD 0 [] ∈
      topsisNormalizedMatrix [witnessItemUnknown] := by
    rw [List.getD_eq_getElem _ _ hlen]
    exact List.getElem_mem hlen
  exact ⟨hz, c8_zero_norm_column [witnessItemUnknown] 0 (by norm_num) hz _ hmem⟩

/-- The equal weight `1/8` that `calculateFuzzyTOPSIS` gives each of its 8
criteria. -/
def fuzzyWeight : ℝ := 1 / 8

/-- The fuzzy positive ideal `FPIS = (1,1,1)` (weighted later). -/
def fpisBase : TFN := (1, 1, 1)

/-- The fuzzy negative ideal `FNIS = (0,0,0)` (weighted later). -/
def fnisBase : TFN := (0, 0, 0)

/-- The 8-entry TFN criteria row `calculateFuzzyTOPSIS` builds for item
`idx`: the four looked-up TFNs interleaved with the four min-max normalized
quantitative columns replicated as point TFNs. -/
def fuzzyCriteriaMatrix (data : List Item) (tfn : FuzzyTFN) (idx : ℕ) : List TFN :=
  let fuzzy := ((applyFuzzyMappings data tfn).getD idx default).fuzzyValues
  let normDailyUsage := minMaxNormalize (data.map (fun d => d.dailyUsage))
  let normAvgStock := minMaxNormalize (data.map (fun d => d.averageStock))
  let normUnitCost := minMaxNormalize (data.map (fun d => d.unitCost))
  let normLeadTime := minMaxNormalize (data.map (fun d => d.leadTime))
  [fuzzy.Risk,
   fuzzy.demandFluctuation,
   (normAvgStock.getD idx 0, normAvgStock.getD idx 0, normAvgStock.getD idx 0),
   (normDailyUsage.getD idx 0, normDailyUsage.getD idx 0, normDailyUsage.getD idx 0),
   (normUnitCost.getD idx 0, normUnitCost.getD idx 0, normUnitCost.getD idx 0),
   (normLeadTime.getD idx 0, normLeadTime.getD idx 0, normLeadTime.getD idx 0),
   fuzzy.consignmentStock,
   fuzzy.unitSize]

/-- The vertex-method squared distance between the `1/8`-weighted TFN and a
`1/8`-weighted ideal: `d² = ((wl-wl')² + (wm-wm')² + (wu-wu')²) / 3`. -/
def vertexDistSq (t ideal : TFN) : ℝ :=
  ((t.1 * fuzzyWeight - ideal.1 * fuzzyWeight) ^ 2 +
   (t.2.1 * fuzzyWeight - ideal.2.1 * fuzzyWeight) ^ 2 +
   (t.2.2 * fuzzyWeight - ideal.2.2 * fuzzyWeight) ^ 2) / 3

/-- `dPos` of item `idx`: square root of the summed squared distances to the
weighted FPIS. -/
def fuzzyDPos (data : List Item) (tfn : FuzzyTFN) (idx : ℕ) : ℝ :=
  Real.sqrt (((fuzzyCriteriaMatrix data tfn idx).map (fun t => vertexDistSq t fpisBase)).sum)

/-- `dNeg` of item `idx`: square root of the summed squared distances to the
weighted FNIS. -/
def fuzzyDNeg (data : List Item) (tfn : FuzzyTFN) (idx : ℕ) : ℝ :=
  Real.sqrt (((fuzzyCriteriaMatrix data tfn idx).map (fun t => vertexDistSq t fnisBase)).sum)

/-- `calculateFuzzyTOPSIS` of `calculations.ts`: write
`Fuzzy_TOPSIS_Score = dNeg / (dPos + dNeg)` onto every item. -/
def calculateFuzzyTOPSIS (data : List Item) (tfn : FuzzyTFN) : List Item :=
  data.enum.map (fun p =>
    { p.2 with Fuzzy_TOPSIS_Score := some (fuzzyDNeg data tfn p.1 /
      (fuzzyDPos data tfn p.1 + fuzzyDNeg data tfn p.1)) })

theorem vertexDistSq_nonneg (t ideal : TFN) : 0 ≤ vertexDistSq t ideal := by
  unfold vertexDistSq
  positivity

theorem vertexDistSq_ideal_sum_pos (t : TFN) :
    0 < vertexDistSq t fpisBase + vertexDistSq t fnisBase := by
  unfold vertexDistSq fpisBase fnisBase fuzzyWeight
  nlinarith [sq_nonneg (t.1 * (1 / 8 : ℝ) - 1 / 16),
    sq_nonneg (t.2.1 * (1 / 8 : ℝ) - 1 / 8), sq_nonneg (t.2.2 * (1 / 8 : ℝ) - 1 / 8),
    sq_nonneg (t.2.1 * (1 / 8 : ℝ)), sq_nonneg (t.2.2 * (1 / 8 : ℝ))]

theorem fuzzyRiskTFN_mem_criteriaMatrix (data : List Item) (tfn : FuzzyTFN) (idx : ℕ) :
    (((applyFuzzyMappings data tfn).getD idx default).fuzzyValues).Risk ∈
      fuzzyCriteriaMatrix data tfn idx := by
  unfold fuzzyCriteriaMatrix
  simp

theorem fuzzy_denominator_pos (data : List Item) (tfn : FuzzyTFN) (idx : ℕ) :
    0 < fuzzyDPos data tfn idx + fuzzyDNeg data tfn idx := by
  set t0 := (((applyFuzzyMappings data tfn).getD idx default).fuzzyValues).Risk with ht0
  have hmem := fuzzyRiskTFN_mem_criteriaMatrix data tfn idx
  have hposmem : vertexDistSq t0 fpisBase ∈
      (fuzzyCriteriaMatrix data tfn idx).map (fun t => vertexDistSq t fpisBase) :=
    List.mem_map.mpr ⟨t0, hmem, rfl⟩
  have hnegmem : vertexDistSq t0 fnisBase ∈
      (fuzzyCriteriaMatrix data tfn idx).map (fun t => vertexDistSq t fnisBase) :=
    List.mem_map.mpr ⟨t0, hmem, rfl⟩
  have hallpos : ∀ x ∈ (fuzzyCriteriaMatrix data tfn idx).map (fun t => vertexDistSq t fpisBase),
      0 ≤ x := by
    intro x hx
    rcases List.mem_map.mp hx with ⟨q, _, hq⟩
    rw [← hq]; exact vertexDistSq_nonneg _ _
  have hallneg : ∀ x ∈ (fuzzyCriteriaMatrix data tfn idx).map (fun t => vertexDistSq t fnisBase),
      0 ≤ x := by
    intro x hx
    rcases List.mem_map.mp hx with ⟨q, _, hq⟩
    rw [← hq]; exact vertexDistSq_nonneg _ _
  have hsumpos : 0 ≤ ((fuzzyCriteriaMatrix data tfn idx).map (fun t => vertexDistSq t fpisBase)).sum :=
    List.sum_nonneg hallpos
  have hsumneg : 0 ≤ ((fuzzyCriteriaMatrix data tfn idx).map (fun t => vertexDistSq t fnisBase)).sum :=
    List.sum_nonneg hallneg
  have hle1 := List.single_le_sum hallpos _ hposmem
  have hle2 := List.single_le_sum hallneg _ hnegmem
  have hkey := vertexDistSq_ideal_sum_pos t0
  have hcases : 0 < vertexDistSq t0 fpisBase ∨ 0 < vertexDistSq t0 fnisBase := by
    by_contra hc
    push_neg at hc
    have h1 := vertexDistSq_nonneg t0 fpisBase
    have h2 := vertexDistSq_nonneg t0 fnisBase
    have e1 : vertexDistSq t0 fpisBase = 0 := le_antisymm hc.1 h1
    have e2 : vertexDistSq t0 fnisBase = 0 := le_antisymm hc.2 h2
    rw [e1, e2] at hkey
    norm_num at hkey
  have hDP : 0 ≤ fuzzyDPos data tfn idx := Real.sqrt_nonneg _
  have hDN : 0 ≤ fuzzyDNeg data tfn idx := Real.sqrt_nonneg _
  rcases hcases with hpos | hneg
  · have : 0 < fuzzyDPos data tfn idx := by
      unfold fuzzyDPos
      rw [Real.sqrt_pos]
      exact lt_of_lt_of_le hpos hle1
    linarith
  · have : 0 < fuzzyDNeg data tfn idx := by
      unfold fuzzyDNeg
      rw [Real.sqrt_pos]
      exact lt_of_lt_of_le hneg hle2
    linarith

/-- C6: `calculateFuzzyTOPSIS` (equal weight `1/8`, vertex-method distances
to the weighted ideals `FPIS = (1,1,1)` and `FNIS = (0,0,0)`) gives every
item the score `dNeg / (dPos + dNeg)`; the denominator is strictly positive
for every item of every dataset (so the score is always defined) and the
score lies in `[0,1]`. -/
theorem c6_fuzzy_topsis_spec (data : List Item) (tfn : FuzzyTFN)
    (idx : ℕ) (hidx : idx < data.length) :
    0 < fuzzyDPos data tfn idx + fuzzyDNeg data tfn idx ∧
    (calculateFuzzyTOPSIS data tfn).getD idx default =
      { data.get ⟨idx, hidx⟩ with Fuzzy_TOPSIS_Score := some (fuzzyDNeg data tfn idx /
        (fuzzyDPos data tfn idx + fuzzyDNeg data tfn idx)) } ∧
    0 ≤ fuzzyDNeg data tfn idx / (fuzzyDPos data tfn idx + fuzzyDNeg data tfn idx) ∧
    fuzzyDNeg data tfn idx / (fuzzyDPos data tfn idx + fuzzyDNeg data tfn idx) ≤ 1 := by
  have hden := fuzzy_denominator_pos data tfn idx
  have hDP : 0 ≤ fuzzyDPos data tfn idx := Real.sqrt_nonneg _
  have hDN : 0 ≤ fuzzyDNeg data tfn idx := Real.sqrt_nonneg _
  refine ⟨hden, ?_, div_nonneg hDN (le_of_lt hden), ?_⟩
  · unfold calculateFuzzyTOPSIS
    rw [getD_enum_map data _ idx hidx default]
  · rw [div_le_one hden]
    linarith

/-- C6 witness: the one-item fixture dataset with the empty fuzzy table;
the index bound is discharged concretely and the score is in `[0,1]`. -/
theorem c6_fuzzy_topsis_spec_witness :
    0 < fuzzyDPos [witnessItemUnknown] emptyFuzzyTable 0 +
        fuzzyDNeg [witnessItemUnknown] emptyFuzzyTable 0 ∧
    0 ≤ fuzzyDNeg [witnessItemUnknown] emptyFuzzyTable 0 /
        (fuzzyDPos [witnessItemUnknown] emptyFuzzyTable 0 +
         fuzzyDNeg [witnessItemUnknown] emptyFuzzyTable 0) ∧
    fuzzyDNeg [witnessItemUnknown] emptyFuzzyTable 0 /
        (fuzzyDPos [witnessItemUnknown] emptyFuzzyTable 0 +
         fuzzyDNeg [witnessItemUnknown] emptyFuzzyTable 0) ≤ 1 := by
  obtain ⟨h1, _, h3, h4⟩ :=
    c6_fuzzy_topsis_spec [witnessItemUnknown] emptyFuzzyTable 0 (by simp)
  exact ⟨h1, h3, h4⟩

/-- Erases the four fields `applyMappings` writes. -/
def eraseMapScores (x : Item) : Item :=
  { x with
    Risk_Score := none, Fluctuation_Score := none,
    Consignment_Score := none, Size_Score := none }

/-- Erases the three fields `calculateAggregations` writes. -/
def eraseAggs (x : Item) : Item :=
  { x with Criticality_Agg := none, Demand_Agg := none, Supply_Agg := none }

/-- Erases the field `calculateTOPSIS` writes. -/
def eraseTopsisScore (x : Item) : Item := { x with TOPSIS_Score := none }

/-- Erases the field `calculateFuzzyTOPSIS` writes. -/
def eraseFuzzyScore (x : Item) : Item := { x with Fuzzy_TOPSIS_Score := none }

/-- Erases the one classification field `classifyABC` writes for the given
score field. -/
def eraseClassField (sf : String) (x : Item) : Item :=
  if sf = "TOPSIS_Score" then { x with Class := none } else { x with Fuzzy_Class := none }

/-- C10: every core operation preserves the item count, and modulo the
fields it writes it returns the input items unchanged (for `classifyABC`,
unchanged up to the sorting permutation); in particular `id` and the eight
raw attributes are never modified. -/
theorem c10_frame_preservation (data : List Item) (mt : MappingTable)
    (w : AggregationWeights) (ew : EntropyWeights) (tfn : FuzzyTFN)
    (th : ABCThresholds) (sf : String) :
    (applyMappings data mt).length = data.length ∧
    (calculateAggregations data w).length = data.length ∧
    (calculateTOPSIS data ew).length = data.length ∧
    (calculateFuzzyTOPSIS data tfn).length = data.length ∧
    (classifyABC data th sf).length = data.length ∧
    (applyMappings data mt).map eraseMapScores = data.map eraseMapScores ∧
    (calculateAggregations data w).map eraseAggs = data.map eraseAggs ∧
    (calculateTOPSIS data ew).map eraseTopsisScore = data.map eraseTopsisScore ∧
    (calculateFuzzyTOPSIS data tfn).map eraseFuzzyScore = data.map eraseFuzzyScore ∧
    ((classifyABC data th sf).map (eraseClassField sf)).Perm
      (data.map (eraseClassField sf)) := by
  refine ⟨?_, ?_, ?_, ?_, ?_, ?_, ?_, ?_, ?_, ?_⟩
  · unfold applyMappings; rw [List.length_map]
  · unfold calculateAggregations; rw [List.length_map, List.enum_length]
  · unfold calculateTOPSIS; rw [List.length_map, List.enum_length]
  · unfold calculateFuzzyTOPSIS; rw [List.length_map, List.enum_length]
  · unfold classifyABC sortByScoreDesc
    rw [List.length_map, List.enum_length, List.length_insertionSort]
  · unfold applyMappings
    rw [List.map_map]
    exact List.map_congr_left (fun a _ => by cases a; rfl)
  · unfold calculateAggregations
    rw [List.map_map]
    have h1 : data.enum.map (eraseAggs ∘ fun p : ℕ × Item => p.2) = data.map eraseAggs := by
      rw [← List.map_map, List.enum_map_snd]
    rw [← h1]
    exact List.map_congr_left (fun p _ => by rcases p with ⟨i, x⟩; cases x; rfl)
  · unfold calculateTOPSIS
    rw [List.map_map]
    have h1 : data.enum.map (eraseTopsisScore ∘ fun p : ℕ × Item => p.2) =
        data.map eraseTopsisScore := by
      rw [← List.map_map, List.enum_map_snd]
    rw [← h1]
    exact List.map_congr_left (fun p _ => by rcases p with ⟨i, x⟩; cases x; rfl)
  · unfold calculateFuzzyTOPSIS
    rw [List.map_map]
    have h1 : data.enum.map (eraseFuzzyScore ∘ fun p : ℕ × Item => p.2) =
        data.map eraseFuzzyScore := by
      rw [← List.map_map, List.enum_map_snd]
    rw [← h1]
    exact List.map_congr_left (fun p _ => by rcases p with ⟨i, x⟩; cases x; rfl)
  · unfold classifyABC
    rw [List.map_map]
    have h1 : (sortByScoreDesc sf data).enum.map
          ((eraseClassField sf) ∘ fun p : ℕ × Item => p.2) =
        (sortByScoreDesc sf data).map (eraseClassField sf) := by
      rw [← List.map_map, List.enum_map_snd]
    have h2 : (sortByScoreDesc sf data).enum.map
          ((eraseClassField sf) ∘ fun p : ℕ × Item =>
            if sf = "TOPSIS_Score" then
              { p.2 with Class := some (abcLabel p.1
                (rankIdxA (sortByScoreDesc sf data).length th)
                (rankIdxB (sortByScoreDesc sf data).length th)) }
            else
              { p.2 with Fuzzy_Class := some (abcLabel p.1
                (rankIdxA (sortByScoreDesc sf data).length th)
                (rankIdxB (sortByScoreDesc sf data).length th)) }) =
        (sortByScoreDesc sf data).enum.map
          ((eraseClassField sf) ∘ fun p : ℕ × Item => p.2) := by
      refine List.map_congr_left (fun p _ => ?_)
      rcases p with ⟨i, x⟩
      by_cases hsf : sf = "TOPSIS_Score"
      · subst hsf
        simp only [Function.comp_apply, eraseClassField, reduceIte]
      · simp only [Function.comp_apply, eraseClassField, if_neg hsf]
    rw [h2, h1]
    exact (List.perm_insertionSort _ data).map (eraseClassField sf)

/-- The per-column mean of `calculateCorrelationMatrix`. -/
def colMean (data : List Item) (col : String) : ℝ :=
  (data.map (fun d => getValue d col)).sum / data.length

/-- The per-column population variance of `calculateCorrelationMatrix`. -/
def colVariance (data : List Item) (col : String) : ℝ :=
  (data.map (fun d => (getValue d col - colMean data col) ^ 2)).sum / data.length

/-- The per-column standard deviation (`stds` in the source). -/
def colStd (data : List Item) (col : String) : ℝ :=
  Real.sqrt (colVariance data col)

/-- The covariance of two columns, paired item by item. -/
def colCovariance (data : List Item) (ci cj : String) : ℝ :=
  (data.map (fun d =>
    (getValue d ci - colMean data ci) * (getValue d cj - colMean data cj))).sum / data.length

/-- One entry of the Pearson correlation matrix: `0` when either standard
deviation is `0`, else `cov / (std_i * std_j)`. -/
def corrEntry (data : List Item) (ci cj : String) : ℝ :=
  if colStd data ci = 0 ∨ colStd data cj = 0 then 0
  else colCovariance data ci cj / (colStd data ci * colStd data cj)

/-- `calculateCorrelationMatrix` of `calculations.ts`: the matrix of pairwise
Pearson correlations over the requested columns, with the column labels. -/
def calculateCorrelationMatrix (data : List Item) (columns : List String) :
    List (List ℝ) × List String :=
  (columns.map (fun ci => columns.map (fun cj => corrEntry data ci cj)), columns)

theorem list_sum_eq_fin_sum {α : Type} (l : List α) (h : α → ℝ) :
    (l.map h).sum = ∑ i : Fin l.length, h (l.get i) := by
  conv_lhs => rw [← List.ofFn_get l]
  rw [List.map_ofFn, List.sum_ofFn]
  rfl

theorem list_cauchy_schwarz {α : Type} (l : List α) (f g : α → ℝ) :
    ((l.map (fun x => f x * g x)).sum) ^ 2 ≤
      (l.map (fun x => f x ^ 2)).sum * (l.map (fun x => g x ^ 2)).sum := by
  rw [list_sum_eq_fin_sum l (fun x => f x * g x), list_sum_eq_fin_sum l (fun x => f x ^ 2),
    list_sum_eq_fin_sum l (fun x => g x ^ 2)]
  exact Finset.sum_mul_sq_le_sq_mul_sq Finset.univ (fun i => f (l.get i)) (fun i => g (l.get i))

theorem colVariance_nonneg (data : List Item) (col : String) :
    0 ≤ colVariance data col := by
  unfold colVariance
  apply div_nonneg
  · apply List.sum_nonneg
    intro x hx
    rcases List.mem_map.mp hx with ⟨d, _, hd⟩
    rw [← hd]; positivity
  · positivity

theorem colStd_eq_zero_iff (data : List Item) (col : String) :
    colStd data col = 0 ↔ colVariance data col = 0 := by
  unfold colStd
  rw [Real.sqrt_eq_zero (colVariance_nonneg data col)]

theorem colCovariance_self (data : List Item) (col : String) :
    colCovariance data col col = colVariance data col := by
  unfold colCovariance colVariance
  congr 1
  exact congrArg List.sum (List.map_congr_left (fun d _ => by ring))

theorem colCovariance_comm (data : List Item) (ci cj : String) :
    colCovariance data ci cj = colCovariance data cj ci := by
  unfold colCovariance
  congr 1
  exact congrArg List.sum (List.map_congr_left (fun d _ => by ring))

theorem colCovariance_sq_le (data : List Item) (ci cj : String) (hne : data ≠ []) :
    colCovariance data ci cj ^ 2 ≤ colVariance data ci * colVariance data cj := by
  have hn : (0 : ℝ) < data.length := by
    have : data.length ≠ 0 := fun h => hne (List.length_eq_zero.mp h)
    positivity
  unfold colCovariance colVariance
  rw [div_pow, div_mul_div_comm]
  rw [show ((data.length : ℝ) ^ 2) = (data.length : ℝ) * data.length by ring]
  rw [div_le_div_right (by positivity)]
  exact list_cauchy_schwarz data (fun d => getValue d ci - colMean data ci)
    (fun d => getValue d cj - colMean data cj)

theorem corrEntry_comm (data : List Item) (ci cj : String) :
    corrEntry data ci cj = corrEntry data cj ci := by
  unfold corrEntry
  rw [colCovariance_comm data ci cj, mul_comm (colStd data ci) (colStd data cj)]
  by_cases h1 : colStd data ci = 0 ∨ colStd data cj = 0
  · rw [if_pos h1, if_pos (Or.symm h1)]
  · rw [if_neg h1, if_neg (fun h => h1 (Or.symm h))]

theorem corrEntry_mem_Icc (data : List Item) (ci cj : String) (hne : data ≠ []) :
    -1 ≤ corrEntry data ci cj ∧ corrEntry data ci cj ≤ 1 := by
  unfold corrEntry
  by_cases h : colStd data ci = 0 ∨ colStd data cj = 0
  · rw [if_pos h]; norm_num
  · rw [if_neg h]
    push_neg at h
    have hvi : 0 < colVariance data ci := by
      rcases lt_or_eq_of_le (colVariance_nonneg data ci) with h' | h'
      · exact h'
      · exact absurd ((colStd_eq_zero_iff data ci).mpr h'.symm) h.1
    have hvj : 0 < colVariance data cj := by
      rcases lt_or_eq_of_le (colVariance_nonneg data cj) with h' | h'
      · exact h'
      · exact absurd ((colStd_eq_zero_iff data cj).mpr h'.symm) h.2
    have hsi : 0 < colStd data ci := Real.sqrt_pos.mpr hvi
    have hsj : 0 < colStd data cj := Real.sqrt_pos.mpr hvj
    have hsq : (colCovariance data ci cj / (colStd data ci * colStd data cj)) ^ 2 ≤ 1 := by
      rw [div_pow]
      rw [div_le_one (by positivity)]
      have hdenom : (colStd data ci * colStd data cj) ^ 2 =
          colVariance data ci * colVariance data cj := by
        rw [mul_pow]
        unfold colStd
        rw [Real.sq_sqrt (colVariance_nonneg data ci),
          Real.sq_sqrt (colVariance_nonneg data cj)]
      rw [hdenom]
      exact colCovariance_sq_le data ci cj hne
    have habs := (sq_le_one_iff_abs_le_one _).mp hsq
    rw [abs_le] at habs
    exact habs

theorem corrEntry_diag (data : List Item) (col : String) (hne : data ≠ [])
    (hv : colVariance data col ≠ 0) : corrEntry data col col = 1 := by
  have hstd : colStd data col ≠ 0 := fun h => hv ((colStd_eq_zero_iff data col).mp h)
  unfold corrEntry
  rw [if_neg (by tauto)]
  rw [colCovariance_self data col]
  unfold colStd
  rw [Real.mul_self_sqrt (colVariance_nonneg data col)]
  exact div_self hv

theorem corrMatrix_entry (data : List Item) (columns : List String)
    (i j : ℕ) (hi : i < columns.length) (hj : j < columns.length) :
    (((calculateCorrelationMatrix data columns).1.getD i []).getD j 0) =
      corrEntry data (columns.get ⟨i, hi⟩) (columns.get ⟨j, hj⟩) := by
  unfold calculateCorrelationMatrix
  rw [getD_map columns _ i hi]
  rw [getD_map columns _ j hj]

/-- C9: for a non-empty dataset the correlation matrix is symmetric, every
entry lies in `[-1,1]`, a diagonal entry is `1` when the column has nonzero
variance, and every entry in a row or column whose standard deviation is `0`
is `0`. -/
theorem c9_correlation_matrix_spec (data : List Item) (columns : List String)
    (hne : data ≠ []) :
    (∀ i j : ℕ, ∀ hi : i < columns.length, ∀ hj : j < columns.length,
      ((calculateCorrelationMatrix data columns).1.getD i []).getD j 0 =
      ((calculateCorrelationMatrix data columns).1.getD j []).getD i 0) ∧
    (∀ i j : ℕ, ∀ hi : i < columns.length, ∀ hj : j < columns.length,
      -1 ≤ ((calculateCorrelationMatrix data columns).1.getD i []).getD j 0 ∧
      ((calculateCorrelationMatrix data columns).1.getD i []).getD j 0 ≤ 1) ∧
    (∀ i : ℕ, ∀ hi : i < columns.length,
      colVariance data (columns.get ⟨i, hi⟩) ≠ 0 →
      ((calculateCorrelationMatrix data columns).1.getD i []).getD i 0 = 1) ∧
    (∀ i j : ℕ, ∀ hi : i < columns.length, ∀ hj : j < columns.length,
      colStd data (columns.get ⟨i, hi⟩) = 0 →
      ((calculateCorrelationMatrix data columns).1.getD i []).getD j 0 = 0 ∧
      ((calculateCorrelationMatrix data columns).1.getD j []).getD i 0 = 0) := by
  refine ⟨?_, ?_, ?_, ?_⟩
  · intro i j hi hj
    rw [corrMatrix_entry data columns i j hi hj, corrMatrix_entry data columns j i hj hi]
    exact corrEntry_comm data _ _
  · intro i j hi hj
    rw [corrMatrix_entry data columns i j hi hj]
    exact corrEntry_mem_Icc data _ _ hne
  · intro i hi hv
    rw [corrMatrix_entry data columns i i hi hi]
    exact corrEntry_diag data _ hne hv
  · intro i j hi hj hstd
    rw [corrMatrix_entry data columns i j hi hj, corrMatrix_entry data columns j i hj hi]
    constructor
    · unfold corrEntry
      rw [if_pos (Or.inl hstd)]
    · unfold corrEntry
      rw [if_pos (Or.inr hstd)]

/-- C9 witness: the two-item fixture dataset over the column list
`["Unit cost"]` (variance of the `(0,1)` column is `1/4 ≠ 0`), giving
diagonal entry `1` and all clauses at concrete indices. -/
theorem c9_correlation_matrix_spec_witness :
    witnessData01 ≠ [] ∧
    colVariance witnessData01 "Unit cost" ≠ 0 ∧
    ((calculateCorrelationMatrix witnessData01 ["Unit cost"]).1.getD 0 []).getD 0 0 = 1 := by
  have hne : witnessData01 ≠ [] := by simp [witnessData01]
  have hmean : colMean witnessData01 "Unit cost" = 1 / 2 := by
    simp [colMean, witnessData01, getValue, witnessItemLow, witnessItemHigh]
  have hv : colVariance witnessData01 "Unit cost" = 1 / 4 := by
    simp only [colVariance]
    rw [hmean]
    simp [witnessData01, getValue, witnessItemLow, witnessItemHigh]
    norm_num
  have hv0 : colVariance witnessData01 "Unit cost" ≠ 0 := by rw [hv]; norm_num
  exact ⟨hne, hv0,
    ((c9_correlation_matrix_spec witnessData01 ["Unit cost"] hne).2.2.1 0 (by norm_num) hv0)⟩

/-- One normalized column of `calculateEntropyWeights`: min-max normalize
and add the fixed epsilon `0.0001` to avoid `log 0`. -/
def entropyMatrixCol (data : List Item) (c : String) : List ℝ :=
  (minMaxNormalize (data.map (fun d => getValue d c))).map (fun v => v + 0.0001)

/-- The proportions `p_ic = x_ic / Σ_i x_ic` of one column. -/
def entropyProportions (data : List Item) (c : String) : List ℝ :=
  (entropyMatrixCol data c).map (fun v => v / (entropyMatrixCol data c).sum)

/-- The constant `k = 1 / ln n`. -/
def entropyK (data : List Item) : ℝ := 1 / Real.log (data.length : ℝ)

/-- The entropy `E_c = -k · Σ_i p_ic · ln p_ic` of one column. -/
def entropyE (data : List Item) (c : String) : ℝ :=
  -entropyK data * ((entropyProportions data c).map (fun p => p * Real.log p)).sum

/-- The diversity `D_c = 1 - E_c` of one column. -/
def entropyDiversity (data : List Item) (c : String) : ℝ := 1 - entropyE data c

/-- The total diversity `Σ_c D_c` over the five criteria. -/
def entropyTotalDiversity (data : List Item) : ℝ :=
  (criteriaKeys.map (fun c => entropyDiversity data c)).sum

/-- `calculateEntropyWeights` of `calculations.ts`: the per-criterion
weights `W_c = D_c / Σ D`. -/
def calculateEntropyWeights (data : List Item) : EntropyWeights :=
  { Criticality_Agg := entropyDiversity data "Criticality_Agg" / entropyTotalDiversity data,
    Demand_Agg := entropyDiversity data "Demand_Agg" / entropyTotalDiversity data,
    Supply_Agg := entropyDiversity data "Supply_Agg" / entropyTotalDiversity data,
    unitCost := entropyDiversity data "Unit cost" / entropyTotalDiversity data,
    Size_Score := entropyDiversity data "Size_Score" / entropyTotalDiversity data }

theorem sum_map_add_fn {α : Type} (l : List α) (f g : α → ℝ) :
    (l.map (fun x => f x + g x)).sum = (l.map f).sum + (l.map g).sum := by
  induction l with
  | nil => simp
  | cons a as ih =>
    simp only [List.map_cons, List.sum_cons, ih]
    ring

theorem sum_map_div_const {α : Type} (l : List α) (f : α → ℝ) (s : ℝ) :
    (l.map (fun x => f x / s)).sum = (l.map f).sum / s := by
  induction l with
  | nil => simp
  | cons a as ih =>
    simp only [List.map_cons, List.sum_cons, ih]
    ring

theorem sum_map_sub_const {α : Type} (l : List α) (f : α → ℝ) (c : ℝ) :
    (l.map (fun x => f x - c)).sum = (l.map f).sum - l.length * c := by
  induction l with
  | nil => simp
  | cons a as ih =>
    simp only [List.map_cons, List.sum_cons, ih, List.length_cons]
    push_cast
    ring

theorem sum_map_mul_const {α : Type} (l : List α) (f : α → ℝ) (c : ℝ) :
    (l.map (fun x => f x * c)).sum = (l.map f).sum * c := by
  induction l with
  | nil => simp
  | cons a as ih =>
    simp only [List.map_cons, List.sum_cons, ih]
    ring

theorem xlogx_lower_bound {x n : ℝ} (hx : 0 < x) (hn : 0 < n) :
    x * Real.log (1 / n) + (x - 1 / n) ≤ x * Real.log x ∧
    (x ≠ 1 / n → x * Real.log (1 / n) + (x - 1 / n) < x * Real.log x) := by
  have hxn : 0 < x * n := by positivity
  have hlog : Real.log x = Real.log (1 / n) + Real.log (x * n) := by
    rw [one_div, Real.log_inv, Real.log_mul (ne_of_gt hx) (ne_of_gt hn)]
    ring
  have hfrac : x * (1 - 1 / (x * n)) = x - 1 / n := by
    field_simp
    ring
  constructor
  · have hineq : 1 - 1 / (x * n) ≤ Real.log (x * n) := by
      have h := Real.log_le_sub_one_of_pos (show 0 < (x * n)⁻¹ by positivity)
      rw [Real.log_inv] at h
      rw [one_div]
      linarith
    have h1 : x * (1 - 1 / (x * n)) ≤ x * Real.log (x * n) :=
      mul_le_mul_of_nonneg_left hineq (le_of_lt hx)
    rw [hfrac] at h1
    rw [hlog]
    linarith [mul_add x (Real.log (1 / n)) (Real.log (x * n))]
  · intro hne
    have hxn1 : x * n ≠ 1 := by
      intro h
      apply hne
      field_simp
      linarith [h]
    have hinv1 : (x * n)⁻¹ ≠ 1 := by
      intro h
      apply hxn1
      have := congrArg (fun t => t⁻¹) h
      simpa using this
    have hineq : 1 - 1 / (x * n) < Real.log (x * n) := by
      have h := Real.log_lt_sub_one_of_pos (show 0 < (x * n)⁻¹ by positivity) hinv1
      rw [Real.log_inv] at h
      rw [one_div]
      linarith
    have h1 : x * (1 - 1 / (x * n)) < x * Real.log (x * n) :=
      (mul_lt_mul_left hx).mpr hineq
    rw [hfrac] at h1
    rw [hlog]
    linarith [mul_add x (Real.log (1 / n)) (Real.log (x * n))]

theorem entropy_sum_gt {p : List ℝ} (hpos : ∀ x ∈ p, 0 < x) (hsum : p.sum = 1)
    (hne : ∃ x ∈ p, x ≠ 1 / (p.length : ℝ)) :
    -Real.log (p.length : ℝ) < (p.map (fun x => x * Real.log x)).sum := by
  have hpnil : p ≠ [] := by
    intro h
    rw [h] at hsum
    simp at hsum
  have hn : 0 < (p.length : ℝ) := by
    have h := List.length_pos.mpr hpnil
    exact_mod_cast h
  have hle : ∀ x ∈ p, x * Real.log (1 / (p.length : ℝ)) + (x - 1 / (p.length : ℝ)) ≤
      x * Real.log x :=
    fun x hx => (xlogx_lower_bound (hpos x hx) hn).1
  obtain ⟨x0, hx0, hx0ne⟩ := hne
  have hlt := List.sum_lt_sum
    (fun x => x * Real.log (1 / (p.length : ℝ)) + (x - 1 / (p.length : ℝ)))
    (fun x => x * Real.log x) hle
    ⟨x0, hx0, (xlogx_lower_bound (hpos x0 hx0) hn).2 hx0ne⟩
  have hcalc : (p.map (fun x => x * Real.log (1 / (p.length : ℝ)) +
      (x - 1 / (p.length : ℝ)))).sum = -Real.log (p.length : ℝ) := by
    rw [sum_map_add_fn p (fun x => x * Real.log (1 / (p.length : ℝ)))
      (fun x => x - 1 / (p.length : ℝ))]
    rw [sum_map_mul_const p (fun x => x) (Real.log (1 / (p.length : ℝ)))]
    rw [sum_map_sub_const p (fun x => x) (1 / (p.length : ℝ))]
    rw [show p.map (fun x => x) = p from List.map_id p]
    rw [hsum, one_div, Real.log_inv]
    field_simp
  rw [hcalc] at hlt
  exact hlt

theorem all_eq_of_jsMax_eq_jsMin {l : List ℝ} (h : jsMax l = jsMin l) :
    ∀ x ∈ l, ∀ y ∈ l, x = y := by
  intro x hx y hy
  have h1 := jsMin_le_mem hx
  have h2 := mem_le_jsMax hx
  have h3 := jsMin_le_mem hy
  have h4 := mem_le_jsMax hy
  rw [h] at h2 h4
  rw [le_antisymm h2 h1, le_antisymm h4 h3]

theorem minMaxNormalize_nondeg {l : List ℝ} (h : jsMax l ≠ jsMin l) :
    minMaxNormalize l = l.map (fun v => (v - jsMin l) / (jsMax l - jsMin l)) := by
  unfold minMaxNormalize
  rw [if_neg h]

theorem entropyMatrixCol_eq (data : List Item) (c : String)
    (hdeg : jsMax (data.map (fun d => getValue d c)) ≠ jsMin (data.map (fun d => getValue d c))) :
    entropyMatrixCol data c = (data.map (fun d => getValue d c)).map
      (fun v => (v - jsMin (data.map (fun d => getValue d c))) /
        (jsMax (data.map (fun d => getValue d c)) - jsMin (data.map (fun d => getValue d c))) +
        0.0001) := by
  unfold entropyMatrixCol
  rw [minMaxNormalize_nondeg hdeg, List.map_map]
  exact List.map_congr_left (fun v _ => rfl)

theorem entropyMatrixCol_pos (data : List Item) (c : String)
    (hne : data ≠ []) :
    ∀ v ∈ entropyMatrixCol data c, 0 < v := by
  intro v hv
  unfold entropyMatrixCol at hv
  rcases List.mem_map.mp hv with ⟨u, hu, huv⟩
  have hmapne : data.map (fun d => getValue d c) ≠ [] := by
    intro h
    exact hne (List.map_eq_nil.mp h)
  have hb := minMaxNormalize_mem_Icc hmapne u hu
  rw [← huv]
  have heps : (0.0001 : ℝ) > 0 := by norm_num
  linarith [hb.1]

theorem entropyMatrixCol_length (data : List Item) (c : String) :
    (entropyMatrixCol data c).length = data.length := by
  unfold entropyMatrixCol
  rw [List.length_map, minMaxNormalize_length, List.length_map]

theorem entropyProportions_length (data : List Item) (c : String) :
    (entropyProportions data c).length = data.length := by
  unfold entropyProportions
  rw [List.length_map, entropyMatrixCol_length]

theorem entropyMatrixCol_sum_pos (data : List Item) (c : String)
    (hne : data ≠ []) : 0 < (entropyMatrixCol data c).sum := by
  apply List.sum_pos _ (entropyMatrixCol_pos data c hne)
  intro h
  have := entropyMatrixCol_length data c
  rw [h] at this
  simp at this
  exact hne (List.length_eq_zero.mp this.symm)

theorem entropyProportions_pos (data : List Item) (c : String)
    (hne : data ≠ []) : ∀ z ∈ entropyProportions data c, 0 < z := by
  intro z hz
  unfold entropyProportions at hz
  rcases List.mem_map.mp hz with ⟨u, hu, huz⟩
  rw [← huz]
  exact div_pos (entropyMatrixCol_pos data c hne u hu) (entropyMatrixCol_sum_pos data c hne)

theorem entropyProportions_sum (data : List Item) (c : String)
    (hne : data ≠ []) : (entropyProportions data c).sum = 1 := by
  unfold entropyProportions
  rw [sum_map_div_const (entropyMatrixCol data c) (fun v => v) ((entropyMatrixCol data c).sum)]
  rw [show (entropyMatrixCol data c).map (fun v => v) = entropyMatrixCol data c from
    List.map_id _]
  exact div_self (ne_of_gt (entropyMatrixCol_sum_pos data c hne))

theorem entropyDiversity_pos (data : List Item) (c : String) (hn : 1 < data.length)
    (hdist : ∃ x ∈ data, ∃ y ∈ data, getValue x c ≠ getValue y c) :
    0 < entropyDiversity data c := by
  obtain ⟨ix, hix, iy, hiy, hxyne⟩ := hdist
  have hne : data ≠ [] := by
    intro h
    rw [h] at hix
    cases hix
  have ha : getValue ix c ∈ data.map (fun d => getValue d c) :=
    List.mem_map.mpr ⟨ix, hix, rfl⟩
  have hb : getValue iy c ∈ data.map (fun d => getValue d c) :=
    List.mem_map.mpr ⟨iy, hiy, rfl⟩
  have hdeg : jsMax (data.map (fun d => getValue d c)) ≠
      jsMin (data.map (fun d => getValue d c)) :=
    fun h => hxyne (all_eq_of_jsMax_eq_jsMin h _ ha _ hb)
  have hdpos : jsMin (data.map (fun d => getValue d c)) <
      jsMax (data.map (fun d => getValue d c)) := by
    have h1 := jsMin_le_mem ha
    have h2 := mem_le_jsMax ha
    exact lt_of_le_of_ne (le_trans h1 h2) (Ne.symm hdeg)
  have hdne : jsMax (data.map (fun d => getValue d c)) -
      jsMin (data.map (fun d => getValue d c)) ≠ 0 := by
    intro h
    apply hdeg
    linarith
  have hSpos := entropyMatrixCol_sum_pos data c hne
  -- the images of the two distinct raw values are distinct members of the
  -- proportions list
  have hmem : ∀ v ∈ data.map (fun d => getValue d c),
      ((v - jsMin (data.map (fun d => getValue d c))) /
        (jsMax (data.map (fun d => getValue d c)) -
         jsMin (data.map (fun d => getValue d c))) + 0.0001) /
        (entropyMatrixCol data c).sum ∈ entropyProportions data c := by
    intro v hv
    unfold entropyProportions
    apply List.mem_map.mpr
    refine ⟨_, ?_, rfl⟩
    rw [entropyMatrixCol_eq data c hdeg]
    exact List.mem_map.mpr ⟨v, hv, rfl⟩
  have hinj : ∀ u v : ℝ,
      ((u - jsMin (data.map (fun d => getValue d c))) /
        (jsMax (data.map (fun d => getValue d c)) -
         jsMin (data.map (fun d => getValue d c))) + 0.0001) /
        (entropyMatrixCol data c).sum =
      ((v - jsMin (data.map (fun d => getValue d c))) /
        (jsMax (data.map (fun d => getValue d c)) -
         jsMin (data.map (fun d => getValue d c))) + 0.0001) /
        (entropyMatrixCol data c).sum → u = v := by
    intro u v h
    have hS : (entropyMatrixCol data c).sum ≠ 0 := ne_of_gt hSpos
    field_simp at h
    linarith
  have hzne : ∃ z ∈ entropyProportions data c,
      z ≠ 1 / ((entropyProportions data c).length : ℝ) := by
    by_cases hc : ((getValue ix c - jsMin (data.map (fun d => getValue d c))) /
        (jsMax (data.map (fun d => getValue d c)) -
         jsMin (data.map (fun d => getValue d c))) + 0.0001) /
        (entropyMatrixCol data c).sum =
        1 / ((entropyProportions data c).length : ℝ)
    · refine ⟨_, hmem _ hb, ?_⟩
      intro h
      exact hxyne (hinj _ _ (h.trans hc.symm)).symm
    · exact ⟨_, hmem _ ha, hc⟩
  have hH := entropy_sum_gt (entropyProportions_pos data c hne)
    (entropyProportions_sum data c hne) hzne
  rw [entropyProportions_length data c] at hH
  have hN1 : (1 : ℝ) < (data.length : ℝ) := by exact_mod_cast hn
  have hlogN : 0 < Real.log (data.length : ℝ) := Real.log_pos hN1
  unfold entropyDiversity entropyE entropyK
  have hkey : (1 / Real.log (data.length : ℝ)) * (-Real.log (data.length : ℝ)) = -1 := by
    field_simp
  have hmul := mul_lt_mul_of_pos_left hH
    (show 0 < 1 / Real.log (data.length : ℝ) by positivity)
  rw [hkey] at hmul
  nlinarith [hmul]

/-- C2: for a dataset with more than one item and at least two distinct
values in each of the five criterion columns, every entropy weight is
non-negative (indeed positive) and the five weights sum exactly to `1`
(hence to `1` within the `1e-9` tolerance). -/
theorem c2_entropy_weights_spec (data : List Item) (hn : 1 < data.length)
    (hdist : ∀ c ∈ criteriaKeys, ∃ x ∈ data, ∃ y ∈ data, getValue x c ≠ getValue y c) :
    (0 ≤ (calculateEntropyWeights data).Criticality_Agg ∧
     0 ≤ (calculateEntropyWeights data).Demand_Agg ∧
     0 ≤ (calculateEntropyWeights data).Supply_Agg ∧
     0 ≤ (calculateEntropyWeights data).unitCost ∧
     0 ≤ (calculateEntropyWeights data).Size_Score) ∧
    (calculateEntropyWeights data).Criticality_Agg +
      (calculateEntropyWeights data).Demand_Agg +
      (calculateEntropyWeights data).Supply_Agg +
      (calculateEntropyWeights data).unitCost +
      (calculateEntropyWeights data).Size_Score = 1 ∧
    |(calculateEntropyWeights data).Criticality_Agg +
      (calculateEntropyWeights data).Demand_Agg +
      (calculateEntropyWeights data).Supply_Agg +
      (calculateEntropyWeights data).unitCost +
      (calculateEntropyWeights data).Size_Score - 1| ≤ 1e-9 := by
  have h1 := entropyDiversity_pos data "Criticality_Agg" hn
    (hdist "Criticality_Agg" (by simp [criteriaKeys]))
  have h2 := entropyDiversity_pos data "Demand_Agg" hn
    (hdist "Demand_Agg" (by simp [criteriaKeys]))
  have h3 := entropyDiversity_pos data "Supply_Agg" hn
    (hdist "Supply_Agg" (by simp [criteriaKeys]))
  have h4 := entropyDiversity_pos data "Unit cost" hn
    (hdist "Unit cost" (by simp [criteriaKeys]))
  have h5 := entropyDiversity_pos data "Size_Score" hn
    (hdist "Size_Score" (by simp [criteriaKeys]))
  have htot : entropyTotalDiversity data =
      entropyDiversity data "Criticality_Agg" + entropyDiversity data "Demand_Agg" +
      entropyDiversity data "Supply_Agg" + entropyDiversity data "Unit cost" +
      entropyDiversity data "Size_Score" := by
    unfold entropyTotalDiversity criteriaKeys
    simp
    ring
  have htotpos : 0 < entropyTotalDiversity data := by
    rw [htot]
    linarith
  have hsum : (calculateEntropyWeights data).Criticality_Agg +
      (calculateEntropyWeights data).Demand_Agg +
      (calculateEntropyWeights data).Supply_Agg +
      (calculateEntropyWeights data).unitCost +
      (calculateEntropyWeights data).Size_Score = 1 := by
    unfold calculateEntropyWeights
    have hne := ne_of_gt htotpos
    field_simp
    rw [htot]
  refine ⟨⟨?_, ?_, ?_, ?_, ?_⟩, hsum, ?_⟩
  · exact div_nonneg (le_of_lt h1) (le_of_lt htotpos)
  · exact div_nonneg (le_of_lt h2) (le_of_lt htotpos)
  · exact div_nonneg (le_of_lt h3) (le_of_lt htotpos)
  · exact div_nonneg (le_of_lt h4) (le_of_lt htotpos)
  · exact div_nonneg (le_of_lt h5) (le_of_lt htotpos)
  · rw [hsum]
    norm_num

/-- C2 witness: the two-item fixture dataset (every criterion column is
`(0, 1)`, so all five columns have two distinct values), with `n = 2 > 1`;
the weights are non-negative and sum to `1`. -/
theorem c2_entropy_weights_spec_witness :
    1 < witnessData01.length ∧
    0 ≤ (calculateEntropyWeights witnessData01).Criticality_Agg ∧
    (calculateEntropyWeights witnessData01).Criticality_Agg +
      (calculateEntropyWeights witnessData01).Demand_Agg +
      (calculateEntropyWeights witnessData01).Supply_Agg +
      (calculateEntropyWeights witnessData01).unitCost +
      (calculateEntropyWeights witnessData01).Size_Score = 1 := by
  have hn : 1 < witnessData01.length := by simp [witnessData01]
  have hdist : ∀ c ∈ criteriaKeys, ∃ x ∈ witnessData01, ∃ y ∈ witnessData01,
      getValue x c ≠ getValue y c := by
    intro c hc
    refine ⟨witnessItemLow, by simp [witnessData01], witnessItemHigh,
      by simp [witnessData01], ?_⟩
    simp only [criteriaKeys] at hc
    fin_cases hc <;> simp [getValue, witnessItemLow, witnessItemHigh]
  obtain ⟨⟨ha, _⟩, hs, _⟩ := c2_entropy_weights_spec witnessData01 hn hdist
  exact ⟨hn, ha, hs⟩

end

end StockOptimizer
